import Mathlib

/-!
Shallow embedding of the volatility signal engine (`src/lib/volatility.ts`):
true-range/ATR computation, the static volatility stop and the trailing
volatility stop.  Prices are modelled as exact rationals; the JavaScript
`Number(x.toFixed(2))` presentation rounding is modelled by `round2`;
thrown errors are modelled by `Except String`, carrying the message text.
-/

/-- One daily price record (`StockData` in the source); the optional
`open`/`volume` fields never feed the computations and are omitted. -/
structure StockData where
  date : String
  high : ℚ
  low : ℚ
  close : ℚ
deriving DecidableEq, Repr

/-- Recommendation / signal values: the string union "HOLD" | "SELL" | "BUY". -/
inductive Recommendation where
  | HOLD
  | SELL
  | BUY
deriving DecidableEq, Repr

/-- Trend values: the string union "UP" | "DOWN". -/
inductive Trend where
  | UP
  | DOWN
deriving DecidableEq, Repr

/-- Floor of a rational, computed directly from its numerator and denominator
(kernel-reducible form of `Int.floor`). -/
def ratFloor (x : ℚ) : ℤ := x.num / (x.den : ℤ)

/-- Rounding to two decimal places, the model of `Number(x.toFixed(2))`:
round half up at the second decimal. -/
def round2 (x : ℚ) : ℚ := (ratFloor (x * 100 + 1 / 2) : ℚ) / 100

/-- True range of one adjacent pair (`calculateTrueRange` in the source):
the largest of high−low, |high−previousClose|, |low−previousClose|. -/
def calculateTrueRange (high low previousClose : ℚ) : ℚ :=
  max (high - low) (max |high - previousClose| |low - previousClose|)

/-- The list of true ranges of a series, one per adjacent pair, oldest first
(the `trueRanges` array built by `calculateATR`). -/
def trueRanges : List StockData → List ℚ
  | [] => []
  | [_] => []
  | a :: b :: rest => calculateTrueRange b.high b.low a.close :: trueRanges (b :: rest)

/-- Message of the error thrown by `calculateATR` on insufficient data. -/
def atrErrorMessage (period : ℕ) : String :=
  "Need at least " ++ toString (period + 1) ++ " data points to calculate ATR"

/-- Message of the error thrown by `calculateVolatilityStopTrailing` on
insufficient data. -/
def trailingErrorMessage (atrPeriod : ℕ) : String :=
  "Need at least " ++ toString (atrPeriod + 1) ++ " data points to calculate Volatility Stop"

/-- One step of Wilder smoothing: `atr = (atr*(period−1) + tr) / period`. -/
def wilderStep (period : ℕ) (atr tr : ℚ) : ℚ :=
  (atr * ((period : ℚ) - 1) + tr) / (period : ℚ)

/-- Average True Range (`calculateATR` in the source): guard on
`data.length < period + 1`, seed with the mean of the first `period` true
ranges, then fold Wilder smoothing over the remaining ones. -/
def calculateATR (data : List StockData) (period : ℕ) : Except String ℚ :=
  if data.length < period + 1 then
    Except.error (atrErrorMessage period)
  else
    let trs := trueRanges data
    let initialATR := (trs.take period).sum / (period : ℚ)
    Except.ok ((trs.drop period).foldl (wilderStep period) initialATR)

/-- Result record of `calculateVolatilityStop`. -/
structure VolatilityStop where
  atr : ℚ
  stopLoss : ℚ
  stopLossPercentage : ℚ
  recommendation : Recommendation
deriving DecidableEq, Repr

/-- Static volatility stop (`calculateVolatilityStop` in the source):
`stopLoss = currentPrice − atr*multiplier`, percentage distance from the
current price, recommendation from fixed thresholds on the unrounded
percentage, numeric fields rounded to two decimals on output. -/
def calculateVolatilityStop (currentPrice atr multiplier : ℚ) : VolatilityStop :=
  let stopLoss := currentPrice - atr * multiplier
  let stopLossPercentage := (currentPrice - stopLoss) / currentPrice * 100
  let recommendation : Recommendation :=
    if stopLossPercentage > 10 then Recommendation.SELL
    else if stopLossPercentage < 3 then Recommendation.BUY
    else Recommendation.HOLD
  { atr := round2 atr
    stopLoss := round2 stopLoss
    stopLossPercentage := round2 stopLossPercentage
    recommendation := recommendation }

/-- One point of the trailing-stop output (`VolatilityStopResult` in the
source). -/
structure VolatilityStopResult where
  date : String
  close : ℚ
  atr : ℚ
  stopLoss : ℚ
  stopLossPercentage : ℚ
  trend : Trend
  signal : Recommendation
deriving DecidableEq, Repr

/-- One non-initial iteration of the trailing-stop loop, mirroring the source:
under UP first take `max(previousStop, stopUp)`, then flip to DOWN with stop
`stopDown` when the price fell below the previous stop; dually under DOWN. -/
def trailingStep (multiplier atr previousStop : ℚ) (trend : Trend) (currentPrice : ℚ) :
    ℚ × Trend :=
  let stopUp := currentPrice - multiplier * atr
  let stopDown := currentPrice + multiplier * atr
  match trend with
  | Trend.UP =>
    let stopLoss := max previousStop stopUp
    if currentPrice < previousStop then (stopDown, Trend.DOWN) else (stopLoss, Trend.UP)
  | Trend.DOWN =>
    let stopLoss := min previousStop stopDown
    if currentPrice > previousStop then (stopUp, Trend.UP) else (stopLoss, Trend.DOWN)

/-- Assembly of one output point from the unrounded stop level and trend:
signal from the unrounded values, numeric fields rounded to two decimals. -/
def mkTrailingPoint (atr : ℚ) (d : StockData) (stopLoss : ℚ) (trend : Trend) :
    VolatilityStopResult :=
  let currentPrice := d.close
  let stopLossPercentage := |(currentPrice - stopLoss) / currentPrice * 100|
  let signal : Recommendation :=
    if trend = Trend.UP ∧ currentPrice > stopLoss then
      (if stopLossPercentage < 3 then Recommendation.BUY else Recommendation.HOLD)
    else if trend = Trend.DOWN ∧ currentPrice < stopLoss then
      (if stopLossPercentage < 3 then Recommendation.SELL else Recommendation.HOLD)
    else Recommendation.HOLD
  { date := d.date
    close := round2 currentPrice
    atr := round2 atr
    stopLoss := round2 stopLoss
    stopLossPercentage := round2 stopLossPercentage
    trend := trend
    signal := signal }

/-- The trailing loop after the initial point: thread the unrounded stop and
the trend through `trailingStep`, emitting one point per input record. -/
def trailingLoop (atr multiplier previousStop : ℚ) (trend : Trend) :
    List StockData → List VolatilityStopResult
  | [] => []
  | d :: rest =>
    let st := trailingStep multiplier atr previousStop trend d.close
    mkTrailingPoint atr d st.1 st.2 :: trailingLoop atr multiplier st.1 st.2 rest

/-- Trailing volatility stop (`calculateVolatilityStopTrailing` in the
source): guard on `data.length < atrPeriod + 1`, compute one ATR for the whole
series, initialize at index `atrPeriod` with trend UP and stop
`close − multiplier*atr`, then iterate `trailingStep` over the rest. -/
def calculateVolatilityStopTrailing (data : List StockData) (atrPeriod : ℕ) (multiplier : ℚ) :
    Except String (List VolatilityStopResult) :=
  if data.length < atrPeriod + 1 then
    Except.error (trailingErrorMessage atrPeriod)
  else
    match calculateATR data atrPeriod with
    | Except.error e => Except.error e
    | Except.ok atr =>
      match data.drop atrPeriod with
      | [] => Except.ok []
      | d :: rest =>
        let stopLoss := d.close - multiplier * atr
        Except.ok (mkTrailingPoint atr d stopLoss Trend.UP ::
          trailingLoop atr multiplier stopLoss Trend.UP rest)

/-!
Reference definitions written from the specification text, to be compared
with the embedded code above.
-/

/-- True range of an adjacent pair as the spec words it:
max(high−low, |high−prevClose|, |low−prevClose|). -/
def specTrueRange (prev cur : StockData) : ℚ :=
  max (cur.high - cur.low) (max |cur.high - prev.close| |cur.low - prev.close|)

/-- The spec's true-range sequence: one value per adjacent pair, i.e. the
series zipped with its own tail. -/
def specTrueRanges (data : List StockData) : List ℚ :=
  List.zipWith specTrueRange data data.tail

/-- ATR as the spec words it: seed with the unweighted mean of the first
`period` true ranges, then fold `atr = (atr*(period−1) + tr) / period` over
each subsequent true range. -/
def specATR (data : List StockData) (period : ℕ) : ℚ :=
  List.foldl (fun atr tr => (atr * ((period : ℚ) - 1) + tr) / (period : ℚ))
    (((specTrueRanges data).take period).sum / (period : ℚ))
    ((specTrueRanges data).drop period)

/-- One trailing-recurrence step as the spec words it: under UP the stop is
max(previousStop, price − multiplier*atr) unless the price fell below the
previous stop, in which case the trend flips to DOWN and the stop resets to
price + multiplier*atr; dually under DOWN. -/
def specStep (multiplier atr previousStop : ℚ) (trend : Trend) (price : ℚ) : ℚ × Trend :=
  match trend with
  | Trend.UP =>
    if price < previousStop then (price + multiplier * atr, Trend.DOWN)
    else (max previousStop (price - multiplier * atr), Trend.UP)
  | Trend.DOWN =>
    if price > previousStop then (price - multiplier * atr, Trend.UP)
    else (min previousStop (price + multiplier * atr), Trend.DOWN)

/-- The stream of (unrounded stop, trend) states produced by iterating
`specStep` from a given state over a list of closing prices. -/
def specStates (multiplier atr previousStop : ℚ) (trend : Trend) : List ℚ → List (ℚ × Trend)
  | [] => []
  | p :: ps =>
    let st := specStep multiplier atr previousStop trend p
    st :: specStates multiplier atr st.1 st.2 ps

/-- The full spec-level state sequence: the first evaluated price opens with
trend UP and stop price − multiplier*atr, the rest follow `specStep`. -/
def specTrailing (multiplier atr : ℚ) : List ℚ → List (ℚ × Trend)
  | [] => []
  | p :: ps =>
    (p - multiplier * atr, Trend.UP) :: specStates multiplier atr (p - multiplier * atr) Trend.UP ps

/-- Relation between consecutive (stop, trend) states: while the trend stays
UP the stop does not decrease, while it stays DOWN the stop does not
increase. -/
def stepRel (a b : ℚ × Trend) : Prop :=
  (a.2 = Trend.UP → b.2 = Trend.UP → a.1 ≤ b.1) ∧
  (a.2 = Trend.DOWN → b.2 = Trend.DOWN → b.1 ≤ a.1)

/-- A flat sample day: high = low = close = 100. -/
def flatPoint : StockData := { date := "2024-01-02", high := 100, low := 100, close := 100 }

/-- A flat sample series of 10 days. -/
def series10 : List StockData := List.replicate 10 flatPoint

/-- A flat sample series of 3 days. -/
def series3 : List StockData := List.replicate 3 flatPoint

/-- Sample day with a degenerate (zero-width) range at 10. -/
def pointA : StockData := { date := "2024-01-03", high := 10, low := 10, close := 10 }

/-- Sample day ranging 11–12, closing at 11. -/
def pointB : StockData := { date := "2024-01-04", high := 12, low := 11, close := 11 }

/-- Sample day ranging 9–11, closing at 11. -/
def pointC : StockData := { date := "2024-01-05", high := 11, low := 9, close := 11 }

/-- Sample day ranging 29–30, closing at 30. -/
def pointD : StockData := { date := "2024-01-06", high := 30, low := 29, close := 30 }

/-- A palindromic three-day series: reversing it gives the same series. -/
def palSeries : List StockData := [pointA, pointB, pointA]

/-- An asymmetric three-day series whose reversal changes the ATR. -/
def asymSeries : List StockData := [pointA, pointC, pointD]

/-- A three-day series used to instantiate the trailing-stop theorems. -/
def witnessSeries : List StockData := [pointA, pointB, pointC]

/-!
Helper lemmas relating the embedded code to the reference definitions.
-/

/-- The true-range list built by `calculateATR` coincides with the spec's
zip-with-tail formulation. -/
theorem trueRanges_eq_spec : ∀ data : List StockData, trueRanges data = specTrueRanges data
  | [] => rfl
  | [_] => rfl
  | a :: b :: rest => by
    show calculateTrueRange b.high b.low a.close :: trueRanges (b :: rest) = _
    rw [trueRanges_eq_spec (b :: rest)]
    rfl

/-- On insufficient data, `calculateATR` produces exactly its error message. -/
theorem calculateATR_error (data : List StockData) (period : ℕ)
    (h : data.length < period + 1) :
    calculateATR data period = Except.error (atrErrorMessage period) := by
  unfold calculateATR
  rw [if_pos h]

/-- On sufficient data, `calculateATR` returns the spec's reference fold. -/
theorem calculateATR_eq_spec (data : List StockData) (period : ℕ)
    (h : period + 1 ≤ data.length) :
    calculateATR data period = Except.ok (specATR data period) := by
  unfold calculateATR
  rw [if_neg (by omega), trueRanges_eq_spec]
  rfl

/-- The code's loop step equals the spec's recurrence step. -/
theorem trailingStep_eq_specStep (m atr prev : ℚ) (t : Trend) (p : ℚ) :
    trailingStep m atr prev t p = specStep m atr prev t p := by
  cases t <;> rfl

/-- The trailing loop is the zip of its input with the spec state stream,
each pair assembled by `mkTrailingPoint`. -/
theorem trailingLoop_eq_spec (atr m : ℚ) :
    ∀ (rest : List StockData) (prev : ℚ) (t : Trend),
      trailingLoop atr m prev t rest =
        (rest.zip (specStates m atr prev t (rest.map StockData.close))).map
          (fun p => mkTrailingPoint atr p.1 p.2.1 p.2.2)
  | [], _, _ => rfl
  | d :: rest, prev, t => by
    simp only [trailingLoop, List.map_cons, specStates, List.zip_cons_cons]
    rw [trailingStep_eq_specStep]
    exact congrArg _ (trailingLoop_eq_spec atr m rest _ _)

/-- The spec state stream has one state per input price. -/
theorem specStates_length (m atr : ℚ) :
    ∀ (ps : List ℚ) (prev : ℚ) (t : Trend),
      (specStates m atr prev t ps).length = ps.length
  | [], _, _ => rfl
  | _ :: ps, _, _ => by
    simp only [specStates, List.length_cons]
    rw [specStates_length m atr ps _ _]

/-- The full spec state sequence has one state per input price. -/
theorem specTrailing_length (m atr : ℚ) (ps : List ℚ) :
    (specTrailing m atr ps).length = ps.length := by
  cases ps with
  | nil => rfl
  | cons p ps =>
    simp only [specTrailing, List.length_cons]
    rw [specStates_length]

/-- On insufficient data, the trailing computation produces exactly its error
message. -/
theorem trailing_error (data : List StockData) (period : ℕ) (m : ℚ)
    (h : data.length < period + 1) :
    calculateVolatilityStopTrailing data period m =
      Except.error (trailingErrorMessage period) := by
  unfold calculateVolatilityStopTrailing
  rw [if_pos h]

/-- On sufficient data, the trailing computation returns the zip of the
evaluated window with the spec state sequence, assembled pointwise by
`mkTrailingPoint` from the ATR of the whole series. -/
theorem trailing_eq_spec (data : List StockData) (period : ℕ) (m : ℚ)
    (h : period + 1 ≤ data.length) :
    calculateVolatilityStopTrailing data period m =
      Except.ok
        (((data.drop period).zip
            (specTrailing m (specATR data period) ((data.drop period).map StockData.close))).map
          (fun p => mkTrailingPoint (specATR data period) p.1 p.2.1 p.2.2)) := by
  obtain ⟨d, rest, hdr⟩ : ∃ d rest, data.drop period = d :: rest := by
    cases hdrop : data.drop period with
    | nil =>
      exfalso
      have := congrArg List.length hdrop
      simp only [List.length_drop, List.length_nil] at this
      omega
    | cons d rest => exact ⟨d, rest, rfl⟩
  unfold calculateVolatilityStopTrailing
  rw [if_neg (by omega), calculateATR_eq_spec data period h, hdr]
  simp only [List.map_cons, specTrailing, List.zip_cons_cons, List.map_cons]
  rw [trailingLoop_eq_spec]

/-- The explicit numerator/denominator floor is `Int.floor` on ℚ. -/
theorem ratFloor_eq_floor (x : ℚ) : ratFloor x = ⌊x⌋ := Rat.floor_def.symm

/-- Unfolding of `round2` through `Int.floor`, for numeric evaluation. -/
theorem round2_eq (x : ℚ) : round2 x = ((⌊x * 100 + 1 / 2⌋ : ℤ) : ℚ) / 100 := by
  rw [round2, ratFloor_eq_floor]

/-- Two-decimal rounding is monotone. -/
theorem round2_mono {x y : ℚ} (hxy : x ≤ y) : round2 x ≤ round2 y := by
  rw [round2_eq, round2_eq]
  have h1 : x * 100 + 1 / 2 ≤ y * 100 + 1 / 2 := by linarith
  have h2 : (⌊x * 100 + 1 / 2⌋ : ℤ) ≤ ⌊y * 100 + 1 / 2⌋ := Int.floor_mono h1
  have h3 : ((⌊x * 100 + 1 / 2⌋ : ℤ) : ℚ) ≤ ((⌊y * 100 + 1 / 2⌋ : ℤ) : ℚ) := by
    exact_mod_cast h2
  linarith

/-- Date field of an assembled trailing point. -/
theorem mkTrailingPoint_date (atr : ℚ) (d : StockData) (s : ℚ) (t : Trend) :
    (mkTrailingPoint atr d s t).date = d.date := rfl

/-- Close field of an assembled trailing point. -/
theorem mkTrailingPoint_close (atr : ℚ) (d : StockData) (s : ℚ) (t : Trend) :
    (mkTrailingPoint atr d s t).close = round2 d.close := rfl

/-- ATR field of an assembled trailing point. -/
theorem mkTrailingPoint_atr (atr : ℚ) (d : StockData) (s : ℚ) (t : Trend) :
    (mkTrailingPoint atr d s t).atr = round2 atr := rfl

/-- Stop-loss field of an assembled trailing point. -/
theorem mkTrailingPoint_stopLoss (atr : ℚ) (d : StockData) (s : ℚ) (t : Trend) :
    (mkTrailingPoint atr d s t).stopLoss = round2 s := rfl

/-- Percentage field of an assembled trailing point. -/
theorem mkTrailingPoint_stopLossPercentage (atr : ℚ) (d : StockData) (s : ℚ) (t : Trend) :
    (mkTrailingPoint atr d s t).stopLossPercentage =
      round2 |(d.close - s) / d.close * 100| := rfl

/-- Trend field of an assembled trailing point. -/
theorem mkTrailingPoint_trend (atr : ℚ) (d : StockData) (s : ℚ) (t : Trend) :
    (mkTrailingPoint atr d s t).trend = t := rfl

/-- One spec step relates the previous state to the next one by `stepRel`. -/
theorem specStep_rel (m atr prev : ℚ) (t : Trend) (p : ℚ) :
    stepRel (prev, t) (specStep m atr prev t p) := by
  cases t with
  | UP =>
    simp only [specStep]
    split
    · exact ⟨fun _ h => Trend.noConfusion h, fun h _ => Trend.noConfusion h⟩
    · exact ⟨fun _ _ => le_max_left _ _, fun h _ => Trend.noConfusion h⟩
  | DOWN =>
    simp only [specStep]
    split
    · exact ⟨fun h _ => Trend.noConfusion h, fun _ h => Trend.noConfusion h⟩
    · exact ⟨fun h _ => Trend.noConfusion h, fun _ _ => min_le_left _ _⟩

/-- The whole state stream, headed by its initial state, is a `stepRel`
chain. -/
theorem specStates_chain (m atr : ℚ) :
    ∀ (ps : List ℚ) (prev : ℚ) (t : Trend),
      List.Chain' stepRel ((prev, t) :: specStates m atr prev t ps)
  | [], _, _ => List.chain'_singleton _
  | p :: ps, prev, t => by
    simp only [specStates]
    rw [List.chain'_cons]
    refine ⟨specStep_rel m atr prev t p, ?_⟩
    have := specStates_chain m atr ps (specStep m atr prev t p).1 (specStep m atr prev t p).2
    simpa using this

/-- The full spec state sequence is a `stepRel` chain. -/
theorem specTrailing_chain (m atr : ℚ) (ps : List ℚ) :
    List.Chain' stepRel (specTrailing m atr ps) := by
  cases ps with
  | nil => exact List.chain'_nil
  | cons p ps => exact specStates_chain m atr ps _ _

/-- A chain on a list lifts to the zip with any other list, through the
second components. -/
theorem chain_zip_snd {α β : Type} {S : β → β → Prop} :
    ∀ (l1 : List α) (l2 : List β), List.Chain' S l2 →
      List.Chain' (fun p q => S p.2 q.2) (l1.zip l2)
  | [], _, _ => by simp
  | _ :: _, [], _ => by simp
  | [_], _ :: _, _ => by simp
  | _ :: _ :: _, _ :: [], _ => by simp
  | a :: a' :: l1, b :: b' :: l2, h => by
    rw [List.zip_cons_cons, List.zip_cons_cons, List.chain'_cons]
    refine ⟨(List.chain'_cons.mp h).1, ?_⟩
    rw [← List.zip_cons_cons]
    exact chain_zip_snd (a' :: l1) (b' :: l2) (List.chain'_cons.mp h).2

/-- The points returned by the trailing computation form a chain: while the
trend persists UP the rounded stop does not decrease, while it persists DOWN
it does not increase. -/
theorem trailing_result_chain (data : List StockData) (period : ℕ) (m : ℚ)
    (h : period + 1 ≤ data.length) (pts : List VolatilityStopResult)
    (hok : calculateVolatilityStopTrailing data period m = Except.ok pts) :
    List.Chain' (fun r s =>
      (r.trend = Trend.UP → s.trend = Trend.UP → r.stopLoss ≤ s.stopLoss) ∧
      (r.trend = Trend.DOWN → s.trend = Trend.DOWN → s.stopLoss ≤ r.stopLoss)) pts := by
  rw [trailing_eq_spec data period m h] at hok
  injection hok with hok
  subst hok
  rw [List.chain'_map]
  have hchain := specTrailing_chain m (specATR data period)
    ((data.drop period).map StockData.close)
  have hz := chain_zip_snd (data.drop period) _ hchain
  refine List.Chain'.imp ?_ hz
  intro p q hpq
  exact ⟨fun h1 h2 => round2_mono (hpq.1 h1 h2), fun h1 h2 => round2_mono (hpq.2 h1 h2)⟩

/-- Along a chain of trailing points, a run of UP trends keeps the stop
non-decreasing over any distance. -/
theorem chain_run_up (pts : List VolatilityStopResult)
    (hc : List.Chain' (fun r s =>
      (r.trend = Trend.UP → s.trend = Trend.UP → r.stopLoss ≤ s.stopLoss) ∧
      (r.trend = Trend.DOWN → s.trend = Trend.DOWN → s.stopLoss ≤ r.stopLoss)) pts) :
    ∀ (d i : ℕ) (hi : i + d < pts.length),
      (∀ (k : ℕ) (hk : k < pts.length), i ≤ k → k ≤ i + d →
        (pts.get ⟨k, hk⟩).trend = Trend.UP) →
      (pts.get ⟨i, by omega⟩).stopLoss ≤ (pts.get ⟨i + d, hi⟩).stopLoss := by
  intro d
  induction d with
  | zero => intro i hi _; exact le_rfl
  | succ d ih =>
    intro i hi hall
    have hadj := List.chain'_iff_get.mp hc i (by omega)
    have h1 : (pts.get ⟨i, by omega⟩).trend = Trend.UP :=
      hall i (by omega) (by omega) (by omega)
    have h2 : (pts.get ⟨i + 1, by omega⟩).trend = Trend.UP :=
      hall (i + 1) (by omega) (by omega) (by omega)
    have hstep : (pts.get ⟨i, by omega⟩).stopLoss ≤ (pts.get ⟨i + 1, by omega⟩).stopLoss :=
      hadj.1 h1 h2
    have hrest := ih (i + 1) (by omega)
      (fun k hk hk1 hk2 => hall k hk (by omega) (by omega))
    have hidx : (⟨i + 1 + d, by omega⟩ : Fin pts.length) = ⟨i + (d + 1), hi⟩ :=
      Fin.ext (show i + 1 + d = i + (d + 1) by omega)
    rw [hidx] at hrest
    exact le_trans hstep hrest

/-- Along a chain of trailing points, a run of DOWN trends keeps the stop
non-increasing over any distance. -/
theorem chain_run_down (pts : List VolatilityStopResult)
    (hc : List.Chain' (fun r s =>
      (r.trend = Trend.UP → s.trend = Trend.UP → r.stopLoss ≤ s.stopLoss) ∧
      (r.trend = Trend.DOWN → s.trend = Trend.DOWN → s.stopLoss ≤ r.stopLoss)) pts) :
    ∀ (d i : ℕ) (hi : i + d < pts.length),
      (∀ (k : ℕ) (hk : k < pts.length), i ≤ k → k ≤ i + d →
        (pts.get ⟨k, hk⟩).trend = Trend.DOWN) →
      (pts.get ⟨i + d, hi⟩).stopLoss ≤ (pts.get ⟨i, by omega⟩).stopLoss := by
  intro d
  induction d with
  | zero => intro i hi _; exact le_rfl
  | succ d ih =>
    intro i hi hall
    have hadj := List.chain'_iff_get.mp hc i (by omega)
    have h1 : (pts.get ⟨i, by omega⟩).trend = Trend.DOWN :=
      hall i (by omega) (by omega) (by omega)
    have h2 : (pts.get ⟨i + 1, by omega⟩).trend = Trend.DOWN :=
      hall (i + 1) (by omega) (by omega) (by omega)
    have hstep : (pts.get ⟨i + 1, by omega⟩).stopLoss ≤ (pts.get ⟨i, by omega⟩).stopLoss :=
      hadj.2 h1 h2
    have hrest := ih (i + 1) (by omega)
      (fun k hk hk1 hk2 => hall k hk (by omega) (by omega))
    have hidx : (⟨i + 1 + d, by omega⟩ : Fin pts.length) = ⟨i + (d + 1), hi⟩ :=
      Fin.ext (show i + 1 + d = i + (d + 1) by omega)
    rw [hidx] at hrest
    exact le_trans hrest hstep

/-- Characterization of the signal attached to an assembled trailing point:
BUY exactly under an UP trend with the price strictly above the unrounded
stop and unrounded distance below 3%, SELL dually under a DOWN trend, HOLD
in every other configuration. -/
theorem mkTrailingPoint_signal_iff (atr : ℚ) (d : StockData) (s : ℚ) (t : Trend) :
    ((mkTrailingPoint atr d s t).signal = Recommendation.BUY ↔
      t = Trend.UP ∧ s < d.close ∧ |(d.close - s) / d.close * 100| < 3) ∧
    ((mkTrailingPoint atr d s t).signal = Recommendation.SELL ↔
      t = Trend.DOWN ∧ d.close < s ∧ |(d.close - s) / d.close * 100| < 3) ∧
    ((mkTrailingPoint atr d s t).signal = Recommendation.HOLD ↔
      (¬(t = Trend.UP ∧ s < d.close ∧ |(d.close - s) / d.close * 100| < 3) ∧
       ¬(t = Trend.DOWN ∧ d.close < s ∧ |(d.close - s) / d.close * 100| < 3))) := by
  have hsig : (mkTrailingPoint atr d s t).signal =
      (if t = Trend.UP ∧ d.close > s then
        (if |(d.close - s) / d.close * 100| < 3 then Recommendation.BUY
         else Recommendation.HOLD)
      else if t = Trend.DOWN ∧ d.close < s then
        (if |(d.close - s) / d.close * 100| < 3 then Recommendation.SELL
         else Recommendation.HOLD)
      else Recommendation.HOLD) := rfl
  rw [hsig]
  cases t <;> split_ifs <;> simp_all

/-- Mapping the (rounded stop, trend) projection over assembled trailing
points recovers the rounded spec state sequence. -/
theorem zip_map_stop_trend (atr : ℚ) :
    ∀ (l1 : List StockData) (l2 : List (ℚ × Trend)), l2.length ≤ l1.length →
      (((l1.zip l2).map (fun p => mkTrailingPoint atr p.1 p.2.1 p.2.2)).map
          (fun r => (r.stopLoss, r.trend))) =
        l2.map (fun st => (round2 st.1, st.2))
  | _, [], _ => by simp
  | [], _ :: _, h => by simp at h
  | a :: l1, b :: l2, h => by
    simp only [List.zip_cons_cons, List.map_cons, mkTrailingPoint_stopLoss,
      mkTrailingPoint_trend]
    rw [zip_map_stop_trend atr l1 l2 (by simpa using h)]

/-- Mapping the date projection over assembled trailing points recovers the
dates of the evaluated window. -/
theorem zip_map_date (atr : ℚ) :
    ∀ (l1 : List StockData) (l2 : List (ℚ × Trend)), l1.length ≤ l2.length →
      (((l1.zip l2).map (fun p => mkTrailingPoint atr p.1 p.2.1 p.2.2)).map
          VolatilityStopResult.date) = l1.map StockData.date
  | [], _, _ => by simp
  | _ :: _, [], h => by simp at h
  | a :: l1, b :: l2, h => by
    simp only [List.zip_cons_cons, List.map_cons, mkTrailingPoint_date]
    rw [zip_map_date atr l1 l2 (by simpa using h)]

/-- Claim C1: for every input series of length n and every period,
`calculateATR` fails with the insufficient-data error iff n < period + 1 and
returns a scalar otherwise, and `calculateVolatilityStopTrailing` has the
identical precondition. -/
theorem claimC1 (data : List StockData) (period : ℕ) (m : ℚ) :
    ((∃ e, calculateATR data period = Except.error e) ↔ data.length < period + 1) ∧
    ((∃ a, calculateATR data period = Except.ok a) ↔ period + 1 ≤ data.length) ∧
    ((∃ e, calculateVolatilityStopTrailing data period m = Except.error e) ↔
      data.length < period + 1) ∧
    ((∃ r, calculateVolatilityStopTrailing data period m = Except.ok r) ↔
      period + 1 ≤ data.length) := by
  by_cases hlen : data.length < period + 1
  · refine ⟨iff_of_true ⟨_, calculateATR_error data period hlen⟩ hlen, ?_,
      iff_of_true ⟨_, trailing_error data period m hlen⟩ hlen, ?_⟩
    · refine iff_of_false ?_ (by omega)
      rintro ⟨a, ha⟩
      rw [calculateATR_error data period hlen] at ha
      exact Except.noConfusion ha
    · refine iff_of_false ?_ (by omega)
      rintro ⟨r, hr⟩
      rw [trailing_error data period m hlen] at hr
      exact Except.noConfusion hr
  · have h2 : period + 1 ≤ data.length := by omega
    refine ⟨?_, iff_of_true ⟨_, calculateATR_eq_spec data period h2⟩ h2, ?_,
      iff_of_true ⟨_, trailing_eq_spec data period m h2⟩ h2⟩
    · refine iff_of_false ?_ hlen
      rintro ⟨e, he⟩
      rw [calculateATR_eq_spec data period h2] at he
      exact Except.noConfusion he
    · refine iff_of_false ?_ hlen
      rintro ⟨e, he⟩
      rw [trailing_eq_spec data period m h2] at he
      exact Except.noConfusion he

/-- Claim C3: on every series satisfying the precondition, `calculateATR`
equals the reference fold from the spec (true range per adjacent pair —
length − 1 of them — seed mean of the first `period`, Wilder smoothing for
the rest). -/
theorem claimC3 (data : List StockData) (period : ℕ) (h : period + 1 ≤ data.length) :
    calculateATR data period = Except.ok (specATR data period) ∧
    (specTrueRanges data).length = data.length - 1 := by
  refine ⟨calculateATR_eq_spec data period h, ?_⟩
  simp only [specTrueRanges, List.length_zipWith, List.length_tail]
  omega

/-- Witness for claim C3 at a concrete three-day series with period 1. -/
theorem claimC3_witness :
    1 + 1 ≤ witnessSeries.length ∧
    (calculateATR witnessSeries 1 = Except.ok (specATR witnessSeries 1) ∧
     (specTrueRanges witnessSeries).length = witnessSeries.length - 1) :=
  ⟨by decide, claimC3 witnessSeries 1 (by decide)⟩

/-- Claim C2 counterexample: the returned stopLoss field is the rounded
value, so at currentPrice=100, atr=1/3, multiplier=1 it differs from the
exact formula currentPrice − atr*multiplier. -/
theorem claimC2_counterexample :
    (calculateVolatilityStop 100 (1 / 3) 1).stopLoss ≠ 100 - (1 / 3) * 1 := by
  norm_num [calculateVolatilityStop, round2, ratFloor]

/-- Claim C2 (amended): the returned fields are the two-decimal roundings of
stopLoss = currentPrice − atr*multiplier and stopLossPercentage =
(currentPrice − stopLoss)/currentPrice*100, the recommendation is derived
from the unrounded percentage with strict thresholds (>10 SELL, <3 BUY,
otherwise HOLD), and at currentPrice=100, atr=5, multiplier=2 the result is
stopLoss=90.0, stopLossPercentage=10.0, recommendation HOLD. -/
theorem claimC2 (cp a m : ℚ) :
    (calculateVolatilityStop cp a m).atr = round2 a ∧
    (calculateVolatilityStop cp a m).stopLoss = round2 (cp - a * m) ∧
    (calculateVolatilityStop cp a m).stopLossPercentage =
      round2 ((cp - (cp - a * m)) / cp * 100) ∧
    (calculateVolatilityStop cp a m).recommendation =
      (if (cp - (cp - a * m)) / cp * 100 > 10 then Recommendation.SELL
       else if (cp - (cp - a * m)) / cp * 100 < 3 then Recommendation.BUY
       else Recommendation.HOLD) ∧
    calculateVolatilityStop 100 5 2 =
      { atr := 5, stopLoss := 90, stopLossPercentage := 10,
        recommendation := Recommendation.HOLD } := by
  refine ⟨rfl, rfl, rfl, rfl, ?_⟩
  norm_num [calculateVolatilityStop, round2, ratFloor]

/-- Claim C4: on every valid series the trailing computation succeeds and its
(stopLoss, trend) projections are exactly the two-decimal roundings of the
spec recurrence: first state trend UP with stop price − multiplier*atr, then
the ratchet/flip step of `specStep` at every later price. -/
theorem claimC4 (data : List StockData) (period : ℕ) (m : ℚ)
    (h : period + 1 ≤ data.length) :
    ∃ pts, calculateVolatilityStopTrailing data period m = Except.ok pts ∧
      pts.map (fun r => (r.stopLoss, r.trend)) =
        (specTrailing m (specATR data period) ((data.drop period).map StockData.close)).map
          (fun st => (round2 st.1, st.2)) := by
  refine ⟨_, trailing_eq_spec data period m h, ?_⟩
  exact zip_map_stop_trend _ _ _ (by rw [specTrailing_length, List.length_map])

/-- Witness for claim C4 at a concrete three-day series, period 1,
multiplier 2. -/
theorem claimC4_witness :
    1 + 1 ≤ witnessSeries.length ∧
    (∃ pts, calculateVolatilityStopTrailing witnessSeries 1 2 = Except.ok pts ∧
      pts.map (fun r => (r.stopLoss, r.trend)) =
        (specTrailing 2 (specATR witnessSeries 1)
            ((witnessSeries.drop 1).map StockData.close)).map
          (fun st => (round2 st.1, st.2))) :=
  ⟨by decide, claimC4 witnessSeries 1 2 (by decide)⟩

/-- Claim C5: in the returned sequence, the stop never decreases along a run
of consecutive UP-trend points and never increases along a run of
consecutive DOWN-trend points. -/
theorem claimC5 (data : List StockData) (period : ℕ) (m : ℚ)
    (h : period + 1 ≤ data.length) :
    ∃ pts, calculateVolatilityStopTrailing data period m = Except.ok pts ∧
      ∀ (i j : ℕ) (hij : i ≤ j) (hj : j < pts.length),
        ((∀ (k : ℕ) (hk : k < pts.length), i ≤ k → k ≤ j →
            (pts.get ⟨k, hk⟩).trend = Trend.UP) →
          (pts.get ⟨i, by omega⟩).stopLoss ≤ (pts.get ⟨j, hj⟩).stopLoss) ∧
        ((∀ (k : ℕ) (hk : k < pts.length), i ≤ k → k ≤ j →
            (pts.get ⟨k, hk⟩).trend = Trend.DOWN) →
          (pts.get ⟨j, hj⟩).stopLoss ≤ (pts.get ⟨i, by omega⟩).stopLoss) := by
  obtain ⟨pts, hok⟩ : ∃ pts, calculateVolatilityStopTrailing data period m = Except.ok pts :=
    ⟨_, trailing_eq_spec data period m h⟩
  refine ⟨pts, hok, ?_⟩
  have hc := trailing_result_chain data period m h pts hok
  intro i j hij hj
  constructor
  · intro hall
    have hrun := chain_run_up pts hc (j - i) i (by omega)
      (fun k hk h1 h2 => hall k hk h1 (by omega))
    have hidx : (⟨i + (j - i), by omega⟩ : Fin pts.length) = ⟨j, hj⟩ :=
      Fin.ext (show i + (j - i) = j by omega)
    rwa [hidx] at hrun
  · intro hall
    have hrun := chain_run_down pts hc (j - i) i (by omega)
      (fun k hk h1 h2 => hall k hk h1 (by omega))
    have hidx : (⟨i + (j - i), by omega⟩ : Fin pts.length) = ⟨j, hj⟩ :=
      Fin.ext (show i + (j - i) = j by omega)
    rwa [hidx] at hrun

/-- Witness for claim C5 at a concrete three-day series, period 1,
multiplier 2. -/
theorem claimC5_witness :
    1 + 1 ≤ witnessSeries.length ∧
    (∃ pts, calculateVolatilityStopTrailing witnessSeries 1 2 = Except.ok pts ∧
      ∀ (i j : ℕ) (hij : i ≤ j) (hj : j < pts.length),
        ((∀ (k : ℕ) (hk : k < pts.length), i ≤ k → k ≤ j →
            (pts.get ⟨k, hk⟩).trend = Trend.UP) →
          (pts.get ⟨i, by omega⟩).stopLoss ≤ (pts.get ⟨j, hj⟩).stopLoss) ∧
        ((∀ (k : ℕ) (hk : k < pts.length), i ≤ k → k ≤ j →
            (pts.get ⟨k, hk⟩).trend = Trend.DOWN) →
          (pts.get ⟨j, hj⟩).stopLoss ≤ (pts.get ⟨i, by omega⟩).stopLoss)) :=
  ⟨by decide, claimC5 witnessSeries 1 2 (by decide)⟩

/-- Claim C6: on a series of length n ≥ atrPeriod + 1 the trailing
computation returns exactly n − atrPeriod points, one per input index from
atrPeriod to n − 1 in order, each carrying that input point's date. -/
theorem claimC6 (data : List StockData) (period : ℕ) (m : ℚ)
    (h : period + 1 ≤ data.length) :
    ∃ pts, calculateVolatilityStopTrailing data period m = Except.ok pts ∧
      pts.length = data.length - period ∧
      pts.map VolatilityStopResult.date = (data.drop period).map StockData.date := by
  refine ⟨_, trailing_eq_spec data period m h, ?_, ?_⟩
  · rw [List.length_map, List.length_zip, specTrailing_length, List.length_map,
      min_self, List.length_drop]
  · exact zip_map_date _ _ _ (by rw [specTrailing_length, List.length_map])

/-- Witness for claim C6 at a concrete three-day series, period 1,
multiplier 2. -/
theorem claimC6_witness :
    1 + 1 ≤ witnessSeries.length ∧
    (∃ pts, calculateVolatilityStopTrailing witnessSeries 1 2 = Except.ok pts ∧
      pts.length = witnessSeries.length - 1 ∧
      pts.map VolatilityStopResult.date = (witnessSeries.drop 1).map StockData.date) :=
  ⟨by decide, claimC6 witnessSeries 1 2 (by decide)⟩

/-- Claim C7 counterexample: the insufficient-data error does not carry the
actual length of the supplied series — two series of different lengths (10
and 3), both below the required 15, produce the identical error, whose
message names only the required length. -/
theorem claimC7_counterexample :
    series10.length = 10 ∧ series3.length = 3 ∧
    calculateATR series10 14 = calculateATR series3 14 ∧
    calculateATR series10 14 =
      Except.error "Need at least 15 data points to calculate ATR" :=
  ⟨rfl, rfl, rfl, rfl⟩

/-- Claim C7 (amended): on a series shorter than period + 1 the error names
the required length period + 1 (for series length 10 and period 14 it reports
required = 15) but does not carry the actual length of the series. -/
theorem claimC7 (data : List StockData) (period : ℕ) (h : data.length < period + 1) :
    calculateATR data period = Except.error (atrErrorMessage period) ∧
    atrErrorMessage 14 = "Need at least 15 data points to calculate ATR" :=
  ⟨calculateATR_error data period h, rfl⟩

/-- Witness for claim C7 at a ten-day series with period 14. -/
theorem claimC7_witness :
    series10.length < 14 + 1 ∧
    (calculateATR series10 14 = Except.error (atrErrorMessage 14) ∧
     atrErrorMessage 14 = "Need at least 15 data points to calculate ATR") :=
  ⟨by decide, claimC7 series10 14 (by decide)⟩

/-- Claim C8 counterexample: a valid palindromic three-day series with
non-constant true ranges is equal to its own reversal, so reversing it leaves
the ATR unchanged — reversal does not change the ATR for every series with
non-constant true ranges. -/
theorem claimC8_counterexample :
    2 + 1 ≤ palSeries.length ∧
    (∃ x ∈ trueRanges palSeries, ∃ y ∈ trueRanges palSeries, x ≠ y) ∧
    calculateATR palSeries.reverse 2 = calculateATR palSeries 2 := by
  refine ⟨by decide, ?_, rfl⟩
  have htr : trueRanges palSeries = [2, 1] := by
    norm_num [palSeries, pointA, pointB, trueRanges, calculateTrueRange]
  rw [htr]
  exact ⟨2, by simp, 1, by simp, by norm_num⟩

/-- Claim C8 (amended): reversing a valid series' order can change the ATR —
there is a valid series with non-constant true ranges whose reversal yields a
different ATR — but not for every such series (palindromic series are
invariant under reversal). -/
theorem claimC8 :
    2 + 1 ≤ asymSeries.length ∧
    (∃ x ∈ trueRanges asymSeries, ∃ y ∈ trueRanges asymSeries, x ≠ y) ∧
    calculateATR asymSeries.reverse 2 ≠ calculateATR asymSeries 2 := by
  have h1 : calculateATR asymSeries 2 = Except.ok (21 / 2) := by
    norm_num [calculateATR, asymSeries, pointA, pointC, pointD, trueRanges,
      calculateTrueRange, wilderStep]
  have h2 : calculateATR asymSeries.reverse 2 = Except.ok 11 := by
    norm_num [calculateATR, asymSeries, pointA, pointC, pointD, trueRanges,
      calculateTrueRange, wilderStep]
  have htr : trueRanges asymSeries = [2, 19] := by
    norm_num [asymSeries, pointA, pointC, pointD, trueRanges, calculateTrueRange]
  refine ⟨by decide, ?_, ?_⟩
  · rw [htr]
    exact ⟨2, by simp, 19, by simp, by norm_num⟩
  · rw [h1, h2]
    intro hcontra
    injection hcontra with hval
    norm_num at hval

/-- Claim C9: every numeric output field is the two-decimal rounding of the
corresponding unrounded quantity — for the static stop all three fields plus
a recommendation computed from the unrounded percentage, and for every
trailing point the close/atr/stopLoss/stopLossPercentage fields, while the
stop threaded through the recurrence (the spec state sequence) stays
unrounded. -/
theorem claimC9 (cp a m : ℚ) (data : List StockData) (period : ℕ) (mt : ℚ)
    (h : period + 1 ≤ data.length) :
    ((calculateVolatilityStop cp a m).atr = round2 a ∧
     (calculateVolatilityStop cp a m).stopLoss = round2 (cp - a * m) ∧
     (calculateVolatilityStop cp a m).stopLossPercentage =
       round2 ((cp - (cp - a * m)) / cp * 100) ∧
     (calculateVolatilityStop cp a m).recommendation =
       (if (cp - (cp - a * m)) / cp * 100 > 10 then Recommendation.SELL
        else if (cp - (cp - a * m)) / cp * 100 < 3 then Recommendation.BUY
        else Recommendation.HOLD)) ∧
    ∃ pts, calculateVolatilityStopTrailing data period mt = Except.ok pts ∧
      pts.map (fun r => (r.close, r.atr, r.stopLoss, r.stopLossPercentage)) =
        ((data.drop period).zip
            (specTrailing mt (specATR data period)
              ((data.drop period).map StockData.close))).map
          (fun p => (round2 p.1.close, round2 (specATR data period), round2 p.2.1,
            round2 |(p.1.close - p.2.1) / p.1.close * 100|)) := by
  refine ⟨⟨rfl, rfl, rfl, rfl⟩, _, trailing_eq_spec data period mt h, ?_⟩
  simp only [List.map_map]
  rfl

/-- Witness for claim C9 at concrete static inputs and a concrete three-day
series, period 1, multiplier 2. -/
theorem claimC9_witness :
    1 + 1 ≤ witnessSeries.length ∧
    (((calculateVolatilityStop 100 5 2).atr = round2 5 ∧
      (calculateVolatilityStop 100 5 2).stopLoss = round2 (100 - 5 * 2) ∧
      (calculateVolatilityStop 100 5 2).stopLossPercentage =
        round2 ((100 - (100 - 5 * 2)) / 100 * 100) ∧
      (calculateVolatilityStop 100 5 2).recommendation =
        (if (100 - (100 - 5 * 2)) / 100 * 100 > (10 : ℚ) then Recommendation.SELL
         else if (100 - (100 - 5 * 2)) / 100 * 100 < (3 : ℚ) then Recommendation.BUY
         else Recommendation.HOLD)) ∧
     ∃ pts, calculateVolatilityStopTrailing witnessSeries 1 2 = Except.ok pts ∧
       pts.map (fun r => (r.close, r.atr, r.stopLoss, r.stopLossPercentage)) =
         ((witnessSeries.drop 1).zip
             (specTrailing 2 (specATR witnessSeries 1)
               ((witnessSeries.drop 1).map StockData.close))).map
           (fun p => (round2 p.1.close, round2 (specATR witnessSeries 1), round2 p.2.1,
             round2 |(p.1.close - p.2.1) / p.1.close * 100|))) :=
  ⟨by decide, claimC9 100 5 2 witnessSeries 1 2 (by decide)⟩

/-- Claim C10: in every returned point, BUY occurs exactly under an UP trend
with the close strictly above the unrounded stop at unrounded distance below
3%, SELL exactly under a DOWN trend with the close strictly below the
unrounded stop at unrounded distance below 3%, and every other configuration
yields HOLD. -/
theorem claimC10 (data : List StockData) (period : ℕ) (m : ℚ)
    (h : period + 1 ≤ data.length) :
    ∃ pts, calculateVolatilityStopTrailing data period m = Except.ok pts ∧
      List.Forall₂ (fun (r : VolatilityStopResult) (q : StockData × (ℚ × Trend)) =>
        r.trend = q.2.2 ∧ r.close = round2 q.1.close ∧ r.stopLoss = round2 q.2.1 ∧
        (r.signal = Recommendation.BUY ↔
          q.2.2 = Trend.UP ∧ q.2.1 < q.1.close ∧
            |(q.1.close - q.2.1) / q.1.close * 100| < 3) ∧
        (r.signal = Recommendation.SELL ↔
          q.2.2 = Trend.DOWN ∧ q.1.close < q.2.1 ∧
            |(q.1.close - q.2.1) / q.1.close * 100| < 3) ∧
        (r.signal = Recommendation.HOLD ↔
          (¬(q.2.2 = Trend.UP ∧ q.2.1 < q.1.close ∧
              |(q.1.close - q.2.1) / q.1.close * 100| < 3) ∧
           ¬(q.2.2 = Trend.DOWN ∧ q.1.close < q.2.1 ∧
              |(q.1.close - q.2.1) / q.1.close * 100| < 3))))
        pts
        ((data.drop period).zip
          (specTrailing m (specATR data period)
            ((data.drop period).map StockData.close))) := by
  refine ⟨_, trailing_eq_spec data period m h, ?_⟩
  rw [List.forall₂_map_left_iff, List.forall₂_same]
  intro q _
  exact ⟨rfl, rfl, rfl,
    (mkTrailingPoint_signal_iff _ q.1 q.2.1 q.2.2).1,
    (mkTrailingPoint_signal_iff _ q.1 q.2.1 q.2.2).2.1,
    (mkTrailingPoint_signal_iff _ q.1 q.2.1 q.2.2).2.2⟩

/-- Witness for claim C10 at a concrete three-day series, period 1,
multiplier 2. -/
theorem claimC10_witness :
    1 + 1 ≤ witnessSeries.length ∧
    (∃ pts, calculateVolatilityStopTrailing witnessSeries 1 2 = Except.ok pts ∧
      List.Forall₂ (fun (r : VolatilityStopResult) (q : StockData × (ℚ × Trend)) =>
        r.trend = q.2.2 ∧ r.close = round2 q.1.close ∧ r.stopLoss = round2 q.2.1 ∧
        (r.signal = Recommendation.BUY ↔
          q.2.2 = Trend.UP ∧ q.2.1 < q.1.close ∧
            |(q.1.close - q.2.1) / q.1.close * 100| < 3) ∧
        (r.signal = Recommendation.SELL ↔
          q.2.2 = Trend.DOWN ∧ q.1.close < q.2.1 ∧
            |(q.1.close - q.2.1) / q.1.close * 100| < 3) ∧
        (r.signal = Recommendation.HOLD ↔
          (¬(q.2.2 = Trend.UP ∧ q.2.1 < q.1.close ∧
              |(q.1.close - q.2.1) / q.1.close * 100| < 3) ∧
           ¬(q.2.2 = Trend.DOWN ∧ q.1.close < q.2.1 ∧
              |(q.1.close - q.2.1) / q.1.close * 100| < 3))))
        pts
        ((witnessSeries.drop 1).zip
          (specTrailing 2 (specATR witnessSeries 1)
            ((witnessSeries.drop 1).map StockData.close)))) :=
  ⟨by decide, claimC10 witnessSeries 1 2 (by decide)⟩
